import Mathlib

/-!
Verification of the per-connection list-projection engine of the sliding-sync
server (Go package `sync3`).  The two source files carry two revisions of the
package: one holds the request algebra (`Request.ApplyDelta`,
`RequestList.CalculateMoveIndexes`), the other the connection state machine
(`ConnState`).  Go machine integers are modelled as `Int` (no arithmetic here
ever overflows an `int64`), Go nil-able slices and pointers as `Option`, and
Go maps as association lists with replace-on-insert semantics, compared
extensionally (as Go map equality is).  The external caches (global cache,
user cache) and the external helpers of package `internal` are oracles
gathered in an `Env` structure.  `SliceRanges` is declared in a file of the
repository that is not part of the excerpt, so its operations are modelled
from the specification's §4.1 wording; each such definition is marked.
-/

/-- Association-list lookup, modelling Go map indexing `m[k]`. -/
def lookupA {β : Type} (k : String) : List (String × β) → Option β
  | [] => none
  | p :: rest => if p.1 = k then some p.2 else lookupA k rest

/-- Association-list insert, modelling Go map assignment `m[k] = v`:
replaces an existing entry in place, otherwise appends. -/
def insertA {β : Type} (k : String) (v : β) : List (String × β) → List (String × β)
  | [] => [(k, v)]
  | p :: rest => if p.1 = k then (k, v) :: rest else p :: insertA k v rest

/-- Association-list removal, modelling Go `delete(m, k)`. -/
def eraseA {β : Type} (k : String) : List (String × β) → List (String × β)
  | [] => []
  | p :: rest => if p.1 = k then eraseA k rest else p :: eraseA k rest

/-- The keys of an association list. -/
def keysA {β : Type} (l : List (String × β)) : List String :=
  l.map Prod.fst

/-- Fold `eraseA` over a list of keys. -/
def eraseAllA {β : Type} (ks : List String) (l : List (String × β)) : List (String × β) :=
  ks.foldl (fun acc k => eraseA k acc) l

/-- Fold `insertA` over a list of entries (Go: ranging over a map and
assigning every entry into another map). -/
def insertAllA {β : Type} (es : List (String × β)) (l : List (String × β)) : List (String × β) :=
  es.foldl (fun acc p => insertA p.1 p.2 acc) l

/-- A window range: an inclusive pair `(lo, hi)` of absolute positions
(Go `[2]int64`). -/
abbrev SliceRange := Int × Int

/-- A set of tracked window ranges (Go `SliceRanges`, a slice of `[2]int64`). -/
abbrev SliceRanges := List SliceRange

/-- Modelled from the spec: `SliceRanges.Inside(i)` — the source file defining
`SliceRanges` is not part of the excerpt.  Spec §4.1: "true iff `lo ≤ i ≤ hi`
for some range; returns the covering range".  Returns the first covering
range (ranges are pairwise non-overlapping by invariant). -/
def SliceRanges.insideRng (rs : SliceRanges) (i : Int) : Option SliceRange :=
  rs.find? (fun r => r.1 ≤ i && i ≤ r.2)

/-- Modelled from the spec: the boolean form of `Inside` used by the
`ConnState` revision of the source (`ranges.Inside(i)` as a condition). -/
def SliceRanges.insideB (rs : SliceRanges) (i : Int) : Bool :=
  (rs.insideRng i).isSome

/-- Modelled from the spec: `SliceRanges.LowerClamp(i)` — spec §4.1: "snap `i`
to the nearest boundary of a tracked range in the stated direction; if there
is no such boundary, return `-1`", and the `moveRoom` comment: "clamp the
index to the highest end-range marker < index". -/
def SliceRanges.lowerClamp (rs : SliceRanges) (i : Int) : Int :=
  rs.foldl (fun acc r => if r.2 < i && r.2 > acc then r.2 else acc) (-1)

/-- Modelled from the spec: `SliceRanges.UpperClamp(i)` — the lowest
start-range marker greater than `i`, `-1` when none exists. -/
def SliceRanges.upperClamp (rs : SliceRanges) (i : Int) : Int :=
  rs.foldl (fun acc r => if r.1 > i && (acc == -1 || r.1 < acc) then r.1 else acc) (-1)

/-- Modelled from the spec: `SliceRanges.ClosestInDirection(i, towardsZero)` —
spec §4.1: "When `towardsZero` is true return the largest boundary `≤ i`;
otherwise the smallest boundary `≥ i`" (boundaries are the `lo` and `hi`
of every range); `-1` when no such boundary exists. -/
def SliceRanges.closestInDirection (rs : SliceRanges) (i : Int) (towardsZero : Bool) : Int :=
  let bounds := rs.foldr (fun r acc => r.1 :: r.2 :: acc) []
  if towardsZero then
    (bounds.filter (fun b => b ≤ i)).foldl max (-1)
  else
    match bounds.filter (fun b => b ≥ i) with
    | [] => -1
    | b :: bs => bs.foldl min b

/-- Modelled from the spec: `SliceRanges.Delta(next)` — spec §4.1: ranges
present only in `next` appear in `added`, only in the receiver in `removed`,
in both in `same`; range equality is by `(lo, hi)` identity. -/
def SliceRanges.deltaR (prev next : SliceRanges) :
    SliceRanges × SliceRanges × SliceRanges :=
  (next.filter (fun r => ¬ prev.contains r),
   prev.filter (fun r => ¬ next.contains r),
   next.filter (fun r => prev.contains r))

/-- Modelled from the spec: `SliceRanges.SliceInto(seq)` — spec §4.1: "yields
subsequences of `seq` whose absolute positions fall inside each range,
preserving range order". -/
def SliceRanges.sliceInto {α : Type} (rs : SliceRanges) (xs : List α) : List (List α) :=
  rs.map (fun r => (xs.drop r.1.toNat).take (r.2 - r.1 + 1).toNat)

/-! ## Request algebra (source file `part_000`, package `sync3`) -/

def SortByName : String := "by_name"

def SortByRecency : String := "by_recency"

def SortByNotificationCount : String := "by_notification_count"

def SortByHighlightCount : String := "by_highlight_count"

/-- `RequestFilters` (source `part_000`).  Pointer fields are `Option`;
nil-able slices of nullable strings are lists of options. -/
structure RequestFilters where
  Spaces : List String := []
  IsDM : Option Bool := none
  IsEncrypted : Option Bool := none
  IsInvite : Option Bool := none
  IsTombstoned : Option Bool := none
  RoomTypes : List (Option String) := []
  NotRoomTypes : List (Option String) := []
  RoomNameFilter : String := ""
  Tags : List String := []
deriving DecidableEq

/-- `RoomSubscription` (source `part_000`): required-state tuples and a
timeline limit.  `RequiredState` is a nil-able Go slice, hence `Option`. -/
structure RoomSubscription where
  RequiredState : Option (List (String × String)) := none
  TimelineLimit : Int := 0
deriving DecidableEq

/-- `RequestList` (source `part_000`).  The Go struct embeds
`RoomSubscription`; its two fields are flattened here.  Nil-able slices and
pointers are `Option`. -/
structure RequestList where
  RequiredState : Option (List (String × String)) := none
  TimelineLimit : Int := 0
  Ranges : Option SliceRanges := none
  sort : Option (List String) := none
  Filters : Option RequestFilters := none
  SlowGetAllRooms : Option Bool := none
deriving DecidableEq

/-- `Request` (source `part_000`).  The room-subscription map is an
association list; the extensions blob belongs to an external package and is
referenced by no claim, so it is omitted. -/
structure Request where
  TxnID : String := ""
  Lists : List RequestList := []
  RoomSubscriptions : List (String × RoomSubscription) := []
  UnsubscribeRooms : List String := []
deriving DecidableEq

/-- `RequestListDelta` (source `part_000`). -/
structure RequestListDelta where
  Prev : Option RequestList := none
  Curr : Option RequestList := none
deriving DecidableEq

/-- `RequestDelta` (source `part_000`). -/
structure RequestDelta where
  Subs : List String := []
  Unsubs : List String := []
  Lists : List RequestListDelta := []
deriving DecidableEq

/-- `RequestList.jumpedOverRanges` (source `part_000` lines 196-209): the
ranges whose two bounds lie strictly between the lower and the higher of the
two move indexes. -/
def RequestList.jumpedOverRanges (rl : RequestList) (fromIndex toIndex : Int) : SliceRanges :=
  let hi := if fromIndex < toIndex then toIndex else fromIndex
  let lo := if fromIndex < toIndex then fromIndex else toIndex
  (rl.Ranges.getD []).filter (fun r => r.1 > lo && r.1 < hi && r.2 > lo && r.2 < hi)

/-- The `(hi, lo)` / `(lo, hi)` orientation applied to a jumped-over range in
`CalculateMoveIndexes`: `(hi, lo)` when heading towards zero. -/
def orientJump (fromIndex toIndex : Int) (r : SliceRange) : Int × Int :=
  if fromIndex > toIndex then (r.2, r.1) else (r.1, r.2)

/-- `RequestList.CalculateMoveIndexes` (source `part_000` lines 117-194):
the real from → to index pairs for a move, given the tracked ranges. -/
def RequestList.calculateMoveIndexes (rl : RequestList) (fromIndex toIndex : Int) :
    List (Int × Int) × Bool :=
  let rs := rl.Ranges.getD []
  let fromRng := rs.insideRng fromIndex
  let toRng := rs.insideRng toIndex
  let jumped := rl.jumpedOverRanges fromIndex toIndex
  -- case B: the pair for an in-range `fromIndex`, the pair for an in-range
  -- `toIndex`, then one oriented pair per jumped-over range
  let caseB : List (Int × Int) :=
    (match fromRng with
     | some _ => [(fromIndex, rs.closestInDirection fromIndex (toIndex < fromIndex))]
     | none => []) ++
    (match toRng with
     | some _ => [(rs.closestInDirection toIndex (fromIndex < toIndex), toIndex)]
     | none => []) ++
    jumped.map (orientJump fromIndex toIndex)
  match fromRng, toRng with
  | some fr, some tr =>
    if fr = tr then ([(fromIndex, toIndex)], true) -- case A
    else (caseB, true)
  | none, none => -- case C
    if jumped = [] then ([], false)
    else (jumped.map (orientJump fromIndex toIndex), true)
  | _, _ => (caseB, true)

/-- The per-list merge of `Request.ApplyDelta` (source `part_000` lines
312-347): each field comes from the incoming list when set (non-nil; for the
timeline limit: non-zero), else from the existing list. -/
def mergeList (existingList nextList : RequestList) : RequestList :=
  { Ranges := match nextList.Ranges with
              | none => existingList.Ranges
              | some x => some x,
    sort := match nextList.sort with
            | none => existingList.sort
            | some x => some x,
    RequiredState := match nextList.RequiredState with
                     | none => existingList.RequiredState
                     | some x => some x,
    SlowGetAllRooms := match nextList.SlowGetAllRooms with
                       | none => existingList.SlowGetAllRooms
                       | some x => some x,
    TimelineLimit := if nextList.TimelineLimit = 0 then existingList.TimelineLimit
                     else nextList.TimelineLimit,
    Filters := match nextList.Filters with
               | none => existingList.Filters
               | some x => some x }

/-- The in-place default applied by `ApplyDelta` to an incoming list that has
no previous counterpart (source `part_000` lines 304-306): a missing or empty
sort becomes `[by_recency]`. -/
def applyDefaultSort (nl : RequestList) : RequestList :=
  if (nl.sort.getD []).isEmpty then { nl with sort := some [SortByRecency] } else nl

/-- The list-merging loop of `ApplyDelta` (source `part_000` lines 298-348),
as structural recursion over (previous lists, incoming lists): an incoming
list with no previous counterpart is taken wholesale (after the sort
default), otherwise the two are merged field-wise. -/
def mergeLists : List RequestList → List RequestList → List RequestList
  | _, [] => []
  | [], nl :: ns => applyDefaultSort nl :: mergeLists [] ns
  | ex :: es, nl :: ns => mergeList ex nl :: mergeLists es ns

/-- The in-place mutation `ApplyDelta` performs on `nextReq` (source
`part_000` line 305): the sort default is written into the incoming request
at every position that has no previous list. -/
def mutateNextLists : List RequestList → List RequestList → List RequestList
  | _, [] => []
  | [], nl :: ns => applyDefaultSort nl :: mutateNextLists [] ns
  | _ :: es, nl :: ns => nl :: mutateNextLists es ns

/-- The previous-unsubscribes pass of `ApplyDelta` (source `part_000` lines
373-379): every identifier present in the working map is reported in
`delta.Unsubs` and removed.  Returns (final map, reported identifiers in
order). -/
def applyPrevUnsubs {β : Type} (m : List (String × β)) :
    List String → List (String × β) × List String
  | [] => (m, [])
  | roomID :: rest =>
    let reported := (lookupA roomID m).isSome
    let next := applyPrevUnsubs (eraseA roomID m) rest
    (next.1, if reported then roomID :: next.2 else next.2)

/-- The incoming-unsubscribes pass of `ApplyDelta` (source `part_000` lines
384-394): an identifier present in the working map is removed, and reported
in `delta.Unsubs` only when the incoming request does not also subscribe to
it. -/
def applyNewUnsubs {β : Type} (newSubs : List (String × β)) (m : List (String × β)) :
    List String → List (String × β) × List String
  | [] => (m, [])
  | roomID :: rest =>
    let reported := (lookupA roomID m).isSome && (lookupA roomID newSubs).isNone
    let next := applyNewUnsubs newSubs (eraseA roomID m) rest
    (next.1, if reported then roomID :: next.2 else next.2)

/-- `Request.ApplyDelta` (source `part_000` lines 282-404).  Returns the
combined request, the delta, and — because the Go function writes the
defaulted sort of added lists into `nextReq.Lists` in place — the incoming
request as it stands after the call (third component). -/
def Request.applyDelta (r? : Option Request) (nextReq : Request) :
    Request × RequestDelta × Request :=
  let r := r?.getD {}
  let lists := mergeLists r.Lists nextReq.Lists
  -- the delta is as large as the longest list of lists
  let maxLen := max lists.length r.Lists.length
  let deltaLists := (List.range maxLen).map (fun i =>
    ({ Prev := r.Lists[i]?, Curr := lists[i]? } : RequestListDelta))
  -- old.subs → apply old.unsubs → apply new.subs → apply new.unsubs
  let afterPrev := applyPrevUnsubs r.RoomSubscriptions r.UnsubscribeRooms
  let afterNewSubs := insertAllA nextReq.RoomSubscriptions afterPrev.1
  let afterNewUnsubs := applyNewUnsubs nextReq.RoomSubscriptions afterNewSubs nextReq.UnsubscribeRooms
  let resultSubs := afterNewUnsubs.1
  let subs := (keysA resultSubs).filter (fun roomID => (lookupA roomID r.RoomSubscriptions).isNone)
  let result : Request :=
    { TxnID := "", Lists := lists, RoomSubscriptions := resultSubs, UnsubscribeRooms := [] }
  let delta : RequestDelta :=
    { Subs := subs, Unsubs := afterPrev.2 ++ afterNewUnsubs.2, Lists := deltaLists }
  (result, delta, { nextReq with Lists := mutateNextLists r.Lists nextReq.Lists })

/-! ## Connection state machine (source file `part_001`, package `sync3`) -/

/-- `internal.RoomMetadata` (external package): the fields the core reads,
plus an opaque component feeding the external name calculation. -/
structure RoomMetadata where
  RoomID : String
  LastMessageTimestamp : Nat := 0
  NameData : List String := []
deriving DecidableEq

/-- `UserRoomData` (user cache, external to the excerpt): unread counters and
the loaded timeline. -/
structure UserRoomData where
  NotificationCount : Int := 0
  HighlightCount : Int := 0
  Timeline : List String := []
deriving DecidableEq

/-- `RoomConnMetadata` (source `part_001` lines 20-26): the embedded
`internal.RoomMetadata` plus connection-local fields. -/
structure RoomConnMetadata where
  RoomMetadata : RoomMetadata
  CanonicalisedName : String := ""
  HighlightCount : Int := 0
  NotificationCount : Int := 0
deriving DecidableEq

/-- `EventData` (declared outside the excerpt; the fields the `ConnState`
code reads).  `event` is the raw event payload, nil-able. -/
structure EventData where
  event : Option String := none
  roomID : String := ""
  latestPos : Int := 0
  timestamp : Nat := 0
deriving DecidableEq

/-- The external collaborators (global cache, user cache, package
`internal`), modelled as oracle functions.  `loadJoinedRooms` may fail, as
`GlobalCache.LoadJoinedRooms` returns an error. -/
structure Env where
  loadJoinedRooms : String → Except String (Int × List RoomMetadata)
  loadRoom : String → RoomMetadata
  loadRoomState : String → Int → List (String × String) → List String
  lazilyLoadRoomDatas : Int → List String → Int → List (String × UserRoomData)
  loadRoomData : String → UserRoomData
  removeHero : String → RoomMetadata → RoomMetadata
  calculateRoomName : RoomMetadata → Nat → String

/-- The `Room` response payload (declared outside the excerpt; the fields the
`ConnState` code writes).  Unset fields keep their Go zero values. -/
structure Room where
  RoomID : String := ""
  Name : String := ""
  NotificationCount : Int := 0
  HighlightCount : Int := 0
  Timeline : List String := []
  RequiredState : List String := []
deriving DecidableEq

/-- `ResponseOpSingle`: an `INSERT` / `DELETE` / `UPDATE` operation. -/
structure ResponseOpSingle where
  Operation : String
  Index : Option Int := none
  RoomID : String := ""
  Room : Option Room := none
deriving DecidableEq

/-- `ResponseOpRange`: a `SYNC` / `INVALIDATE` operation over a range. -/
structure ResponseOpRange where
  Operation : String
  Range : SliceRange
  RoomIDs : List String := []
  Rooms : List Room := []
deriving DecidableEq

/-- A response operation (the Go `ResponseOp` interface). -/
inductive ResponseOp where
  | single (op : ResponseOpSingle)
  | range (op : ResponseOpRange)
deriving DecidableEq

/-- The `part_001` revision of `sync3.Request`: window ranges, sort and
timeline limit live directly on the request.  Lean cannot reuse the name
`Request`, hence `ConnRequest`.  `getRequiredState` stands for the
`GetRequiredState` method, whose body is outside the excerpt. -/
structure ConnRequest where
  Rooms : Option SliceRanges := none
  sort : Option (List String) := none
  TimelineLimit : Int := 0
  RoomSubscriptions : List (String × RoomSubscription) := []
  getRequiredState : String → List (String × String) := fun _ => []

/-- The `Response` of the `part_001` revision: the fields the excerpt
writes. -/
structure Response where
  RoomSubscriptions : List (String × Room) := []
  Count : Int := 0
  Ops : List ResponseOp := []

/-- `ConnState` (source `part_001` lines 30-45).  The event inbox channel is
modelled as the FIFO list of its buffered contents. -/
structure ConnState where
  muxedReq : Option ConnRequest := none
  userID : String := ""
  sortedJoinedRooms : List RoomConnMetadata := []
  sortedJoinedRoomsPositions : List (String × Int) := []
  roomSubscriptions : List (String × RoomSubscription) := []
  loadPosition : Int := 0
  updateEvents : List EventData := []

/-- `MaxPendingEventUpdates` (source `part_001` line 17). -/
def MaxPendingEventUpdates : Nat := 200

/-- Go `strings.Trim(s, "#!()):_")` followed by `strings.ToLower` (source
`part_001` lines 82-84): strip leading and trailing cutset characters, then
lower-case. -/
def canonicalise (s : String) : String :=
  let cutset : List Char := "#!()):_".toList
  let trimmed := ((s.toList.dropWhile cutset.contains).reverse.dropWhile cutset.contains).reverse
  String.mk (trimmed.map Char.toLower)

/-- Modelled from the spec: the per-key comparator of `SortableRooms.Sort`
(the `SortableRooms` source file is not part of the excerpt).  Spec §4.2:
`by_name` ascending on the canonicalised name, the other keys descending. -/
def keyCompare (key : String) (a b : RoomConnMetadata) : Ordering :=
  if key = SortByName then compare a.CanonicalisedName b.CanonicalisedName
  else if key = SortByRecency then
    compare b.RoomMetadata.LastMessageTimestamp a.RoomMetadata.LastMessageTimestamp
  else if key = SortByNotificationCount then compare b.NotificationCount a.NotificationCount
  else if key = SortByHighlightCount then compare b.HighlightCount a.HighlightCount
  else Ordering.eq

/-- Modelled from the spec: the full comparator — earlier keys dominate, ties
after the full key sequence are broken by ascending room identifier
(spec §4.2). -/
def roomCompare (keys : List String) (a b : RoomConnMetadata) : Ordering :=
  match keys with
  | [] => compare a.RoomMetadata.RoomID b.RoomMetadata.RoomID
  | k :: ks =>
    match keyCompare k a b with
    | Ordering.eq => roomCompare ks a b
    | o => o

/-- Stable insertion of a room into a sorted list (a later room never moves
ahead of an earlier equivalent one). -/
def insertRoomSorted (keys : List String) (x : RoomConnMetadata) :
    List RoomConnMetadata → List RoomConnMetadata
  | [] => [x]
  | y :: ys =>
    if roomCompare keys x y ≠ Ordering.gt then x :: y :: ys
    else y :: insertRoomSorted keys x ys

/-- Modelled from the spec: `SortableRooms.Sort(keys)` — a stable sort under
the key-sequence comparator (spec §4.2). -/
def sortRooms (keys : List String) : List RoomConnMetadata → List RoomConnMetadata
  | [] => []
  | x :: xs => insertRoomSorted keys x (sortRooms keys xs)

/-- `ConnState.sort` (source `part_001` lines 95-101): sort the room list and
refresh the reverse index.  The Go loop assigns into the existing map, so
stale entries for rooms no longer present survive — modelled by folding
inserts into the current index. -/
def ConnState.sortState (s : ConnState) (sortBy : List String) : ConnState :=
  let sorted := sortRooms sortBy s.sortedJoinedRooms
  let positions := sorted.enum.foldl
    (fun acc p => insertA p.2.RoomMetadata.RoomID (Int.ofNat p.1) acc)
    s.sortedJoinedRoomsPositions
  { s with sortedJoinedRooms := sorted, sortedJoinedRoomsPositions := positions }

/-- The zero-value stand-in for a nil `muxedReq` dereference; every call site
in the source runs with `muxedReq` already set. -/
def defaultConnRequest : ConnRequest := {}

/-- `ConnState.getDeltaRoomData` (source `part_001` lines 314-327): the delta
projection carrying the counters and, when present, the single new event. -/
def ConnState.getDeltaRoomData (s : ConnState) (env : Env) (updateEvent : EventData) : Room :=
  let userRoomData := env.loadRoomData updateEvent.roomID
  let room : Room :=
    { RoomID := updateEvent.roomID,
      NotificationCount := userRoomData.NotificationCount,
      HighlightCount := userRoomData.HighlightCount }
  match updateEvent.event with
  | some ev => { room with Timeline := [ev] }
  | none => room

/-- `ConnState.getInitialRoomData` (source `part_001` lines 329-347): the
initial projection of each room, built from the lazily loaded user data and
the global cache. -/
def ConnState.getInitialRoomData (s : ConnState) (env : Env) (roomIDs : List String) : List Room :=
  let m := s.muxedReq.getD defaultConnRequest
  let roomIDToUserRoomData := env.lazilyLoadRoomDatas s.loadPosition roomIDs m.TimelineLimit
  roomIDs.map (fun roomID =>
    let userRoomData := (lookupA roomID roomIDToUserRoomData).getD {}
    let metadata := env.removeHero s.userID (env.loadRoom roomID)
    { RoomID := roomID,
      Name := env.calculateRoomName metadata 5,
      NotificationCount := userRoomData.NotificationCount,
      HighlightCount := userRoomData.HighlightCount,
      Timeline := userRoomData.Timeline,
      RequiredState := env.loadRoomState roomID s.loadPosition (m.getRequiredState roomID) })

/-- One iteration of the new-subscriptions loop of
`ConnState.updateRoomSubscriptions` (source `part_001` lines 295-307): a room
without subscription information in the muxed request is skipped with a
warning; otherwise it is recorded in the active subscriptions and answered
with its initial projection. -/
def ConnState.subStep (env : Env) (m : ConnRequest)
    (acc : List (String × Room) × ConnState) (roomID : String) :
    List (String × Room) × ConnState :=
  match lookupA roomID m.RoomSubscriptions with
  | none => acc -- logged warning, room subscription ignored
  | some sub =>
    let s1 := { acc.2 with roomSubscriptions := insertA roomID sub acc.2.roomSubscriptions }
    let rooms := s1.getInitialRoomData env [roomID]
    (insertA roomID (rooms.headD { RoomID := roomID }) acc.1, s1)

/-- `ConnState.updateRoomSubscriptions` (source `part_001` lines 293-312):
run the new-subscriptions loop, then remove every unsubscribe from the
active subscriptions. -/
def ConnState.updateRoomSubscriptions (s : ConnState) (env : Env) (subs unsubs : List String) :
    List (String × Room) × ConnState :=
  let m := s.muxedReq.getD defaultConnRequest
  let afterSubs := subs.foldl (ConnState.subStep env m) ([], s)
  let s2 := { afterSubs.2 with
    roomSubscriptions := eraseAllA unsubs afterSubs.2.roomSubscriptions }
  (afterSubs.1, s2)

/-- `ConnState.moveRoom` (source `part_001` lines 383-429): the op stream for
a room moving between two absolute positions. -/
def ConnState.moveRoom (s : ConnState) (env : Env) (updateEvent : EventData)
    (fromIndex toIndex : Int) (ranges : SliceRanges) (onlySendRoomID : Bool) :
    List ResponseOp :=
  if fromIndex = toIndex then
    let room : Room :=
      if onlySendRoomID then { RoomID := updateEvent.roomID }
      else s.getDeltaRoomData env updateEvent
    [ResponseOp.single { Operation := "UPDATE", Index := some fromIndex, Room := some room }]
  else
    let deleteIndex := if ranges.insideB fromIndex then fromIndex else ranges.lowerClamp fromIndex
    let room : Room :=
      if onlySendRoomID then { RoomID := updateEvent.roomID }
      else (s.getInitialRoomData env [updateEvent.roomID]).headD { RoomID := updateEvent.roomID }
    [ResponseOp.single { Operation := "DELETE", Index := some deleteIndex },
     ResponseOp.single { Operation := "INSERT", Index := some toIndex, Room := some room }]

/-- `ConnState.OnNewEvent` (source `part_001` lines 353-368).  The bounded
channel send with its 5-second timeout is modelled synchronously: if the
buffer has room the event is enqueued; if it is full and no consumer drains
it (the over-5-seconds blocking case) the timeout arm runs, which only logs a
warning — the event is discarded and the state, including the connection's
liveness, is untouched. -/
def ConnState.onNewEvent (s : ConnState) (eventData : EventData) : ConnState :=
  if eventData.latestPos ≠ 0 ∧ eventData.latestPos < s.loadPosition then
    -- already processed during the initial load: drop
    s
  else if s.updateEvents.length < MaxPendingEventUpdates then
    { s with updateEvents := s.updateEvents ++ [eventData] }
  else
    s -- timeout arm: warning logged, nothing else happens

/-- `ConnState.load` (source `part_001` lines 71-93): load the joined-room
list at the initial position; on a cache error, return it with the state
untouched. -/
def ConnState.load (s : ConnState) (env : Env) (req : ConnRequest) : Except String ConnState :=
  match env.loadJoinedRooms s.userID with
  | Except.error e => Except.error e
  | Except.ok res =>
    let rooms := res.2.map (fun metadata =>
      let m := env.removeHero s.userID metadata
      ({ RoomMetadata := m,
         CanonicalisedName := canonicalise (env.calculateRoomName m 5) } : RoomConnMetadata))
    Except.ok (ConnState.sortState
      { s with loadPosition := res.1, sortedJoinedRooms := rooms } (req.sort.getD []))

/-- An `INVALIDATE` operation for a range (source `part_001` lines 156-159
and 170-173). -/
def invalidateOp (r : SliceRange) : ResponseOp :=
  ResponseOp.range { Operation := "INVALIDATE", Range := r }

/-- The `SYNC` operation for an added range (source `part_001` lines
176-190): slice the sorted list to the range and attach the initial
projections of the rooms in that absolute slice. -/
def ConnState.syncOpForRange (s : ConnState) (env : Env) (r : SliceRange) : ResponseOp :=
  let subslice := SliceRanges.sliceInto [r] s.sortedJoinedRooms
  let rooms := subslice.headD []
  let roomIDs := rooms.map (fun rm => rm.RoomMetadata.RoomID)
  ResponseOp.range { Operation := "SYNC", Range := r, Rooms := s.getInitialRoomData env roomIDs }

/-- The window-delta section of `ConnState.onIncomingRequest` (source
`part_001` lines 143-190): compute (added, removed, same); when the sort
changed and a previous sort existed, emit `INVALIDATE` for every new range,
re-sort, and treat every range as added; then emit `INVALIDATE` per removed
range and `SYNC` per added range.  Returns the ops, the possibly re-sorted
state, and `same` (whose non-emptiness gates the live loop). -/
def ConnState.windowOps (s : ConnState) (env : Env) (prevRange : Option SliceRanges)
    (prevSort : Option (List String)) (newMuxed : ConnRequest) :
    List ResponseOp × ConnState × SliceRanges :=
  let newRooms := newMuxed.Rooms.getD []
  let d0 : SliceRanges × SliceRanges × SliceRanges :=
    match prevRange with
    | some pr => SliceRanges.deltaR pr newRooms
    | none => (newRooms, [], [])
  if prevSort ≠ newMuxed.sort then
    -- sort changed: invalidate everything (if there were previous syncs),
    -- re-sort and re-SYNC; removed and same become empty
    let invs := if prevSort ≠ none then newRooms.map invalidateOp else []
    let s1 := s.sortState (newMuxed.sort.getD [])
    (invs ++ newRooms.map (fun r => s1.syncOpForRange env r), s1, [])
  else
    (d0.2.1.map invalidateOp ++ d0.1.map (fun r => s.syncOpForRange env r), s, d0.2.2)

/-- `ConnState.onIncomingRequest` up to the live loop (source `part_001`
lines 114-192): capture the previous window and sort, replace the muxed
request (the first request is taken wholesale, later ones go through the
request-delta merge, a function of a source file outside the excerpt and
hence a parameter here), resolve subscriptions, then run the window-delta
section.  The final boolean is the live-loop entry condition. -/
def ConnState.onIncomingRequestCore (s : ConnState) (env : Env)
    (applyDeltaV1 : ConnRequest → ConnRequest → ConnRequest × List String × List String)
    (req : ConnRequest) : Response × ConnState × Bool :=
  let prevRange := s.muxedReq.bind (fun m => m.Rooms)
  let prevSort := s.muxedReq.bind (fun m => m.sort)
  let upd :=
    match s.muxedReq with
    | none => (req, keysA req.RoomSubscriptions, ([] : List String))
    | some old => applyDeltaV1 old req
  let s1 := { s with muxedReq := some upd.1 }
  let subsUpd := s1.updateRoomSubscriptions env upd.2.1 upd.2.2
  let count : Int := Int.ofNat subsUpd.2.sortedJoinedRooms.length
  let w := subsUpd.2.windowOps env prevRange prevSort upd.1
  ({ RoomSubscriptions := subsUpd.1, Count := count, Ops := w.1 },
   w.2.1,
   !w.2.2.isEmpty && w.1.isEmpty && subsUpd.1.isEmpty)

/-- `ConnState.HandleIncomingRequest` (source `part_001` lines 104-109): on
the first request (`loadPosition == 0`) call `load` — whose error return the
source discards — then hand over to `onIncomingRequest`. -/
def ConnState.handleIncomingRequest (s : ConnState) (env : Env)
    (applyDeltaV1 : ConnRequest → ConnRequest → ConnRequest × List String × List String)
    (req : ConnRequest) : Except String (Response × ConnState × Bool) :=
  let s0 :=
    if s.loadPosition = 0 then
      match s.load env req with
      | Except.ok s1 => s1
      | Except.error _ => s -- the source ignores the value of `s.load(req)`
    else s
  Except.ok (s0.onIncomingRequestCore env applyDeltaV1 req)

/-! ## Claim-side definitions (worded as the specification states them,
for comparison against the source-derived functions above) -/

/-- The claim's notion of a jumped-over range: one whose `lo` and `hi` both
lie strictly between `min(fromIndex, toIndex)` and `max(fromIndex,
toIndex)`. -/
def jumpedOverClaim (rs : SliceRanges) (fromIndex toIndex : Int) : SliceRanges :=
  rs.filter (fun r =>
    min fromIndex toIndex < r.1 && r.1 < max fromIndex toIndex &&
    min fromIndex toIndex < r.2 && r.2 < max fromIndex toIndex)

/-- The per-list merge rule exactly as claim C3 words it: ranges,
required-state, filters and slow-get-all-rooms from the incoming list when
set, else from the previous; sort from the incoming list when NON-EMPTY,
else previous, defaulting to `[by_recency]` when both are empty and no
previous list exists; timeline-limit from the incoming list when `> 0`, else
previous. -/
def c3ClaimMerge (prevList : Option RequestList) (incoming : RequestList) : RequestList :=
  { Ranges := if incoming.Ranges.isSome then incoming.Ranges
              else (prevList.map (fun p => p.Ranges)).getD incoming.Ranges,
    RequiredState := if incoming.RequiredState.isSome then incoming.RequiredState
                     else (prevList.map (fun p => p.RequiredState)).getD incoming.RequiredState,
    Filters := if incoming.Filters.isSome then incoming.Filters
               else (prevList.map (fun p => p.Filters)).getD incoming.Filters,
    SlowGetAllRooms := if incoming.SlowGetAllRooms.isSome then incoming.SlowGetAllRooms
                       else (prevList.map (fun p => p.SlowGetAllRooms)).getD incoming.SlowGetAllRooms,
    sort := if ¬ (incoming.sort.getD []).isEmpty then incoming.sort
            else match prevList with
                 | some p => p.sort
                 | none => some [SortByRecency],
    TimelineLimit := if incoming.TimelineLimit > 0 then incoming.TimelineLimit
                     else (prevList.map (fun p => p.TimelineLimit)).getD incoming.TimelineLimit }

/-- The amended per-list merge rule (what the source does): every slice or
pointer field from the incoming list when SET (non-nil, even if empty), else
from the previous; sort defaulting to `[by_recency]` only when no previous
list exists and the incoming sort is missing or empty; timeline-limit from
the incoming list when NON-ZERO (not: positive), else previous. -/
def c3AmendedMerge (prevList : Option RequestList) (incoming : RequestList) : RequestList :=
  match prevList with
  | none => applyDefaultSort incoming
  | some p => mergeList p incoming

/-- The subscription pipeline exactly as claim C4 words it: previous
subscriptions, minus previous unsubscribes, overwritten by incoming
subscriptions, minus incoming unsubscribes. -/
def c4Pipeline (prev nextReq : Request) : List (String × RoomSubscription) :=
  eraseAllA nextReq.UnsubscribeRooms
    (insertAllA nextReq.RoomSubscriptions
      (eraseAllA prev.UnsubscribeRooms prev.RoomSubscriptions))

/-- The value attached to the last entry of an association list holding a
key (what a sequence of Go map assignments leaves behind). -/
def lookupLastA {β : Type} (k : String) : List (String × β) → Option β
  | [] => none
  | p :: rest =>
    match lookupLastA k rest with
    | some v => some v
    | none => if p.1 = k then some p.2 else none

/-! ## Concrete instances used by witnesses and counterexamples -/

/-- The tracked-range list of the worked example in the source comment of
`CalculateMoveIndexes`: `[1,4],[7,9]`. -/
def exampleList : RequestList := { Ranges := some [(1, 4), (7, 9)] }

/-- Previous request for the C3 counterexample: one list with a sort and a
positive timeline limit. -/
def c3prevReq : Request := { Lists := [{ sort := some ["by_name"], TimelineLimit := 5 }] }

/-- Incoming request for the C3 counterexample: the sort is set but empty
(Go: a non-nil empty slice, JSON `"sort": []`) and the timeline limit is
negative. -/
def c3nextReq : Request := { Lists := [{ sort := some [], TimelineLimit := -1 }] }

/-- Previous muxed request for the C4 counterexample: the client's first
request both subscribed and unsubscribed `!a`, and is stored wholesale as
the muxed request, so its unsubscribe list is non-empty. -/
def c4prevReq : Request :=
  { RoomSubscriptions := [("!a", {})], UnsubscribeRooms := ["!a"] }

/-- Incoming request for the C4 counterexample: re-subscribes `!a`. -/
def c4nextReq : Request := { RoomSubscriptions := [("!a", { TimelineLimit := 7 })] }

/-- A connection whose initial load consumed every event up to position 5. -/
def c6state : ConnState := { loadPosition := 5 }

/-- An event carrying exactly the load position (already included in the
initial load). -/
def c6eventAtLoad : EventData := { roomID := "!r", latestPos := 5 }

/-- An event carrying the placeholder position 0 while the load position is
ahead of it. -/
def c6eventZero : EventData := { roomID := "!r", latestPos := 0 }

/-- A stale event: nonzero position strictly below the load position. -/
def c6eventStale : EventData := { roomID := "!r", latestPos := 3 }

/-- An old buffered event filling one inbox slot. -/
def c7buffered : EventData := { roomID := "!old", latestPos := 2 }

/-- A healthy connection whose event inbox is completely full
(`MaxPendingEventUpdates` buffered events) with no consumer draining it:
the next send blocks past the 5-second timeout. -/
def c7fullState : ConnState :=
  { loadPosition := 1, updateEvents := List.replicate MaxPendingEventUpdates c7buffered }

/-- The event whose send hits the full inbox. -/
def c7newEvent : EventData := { roomID := "!busy", latestPos := 9 }

/-- An environment whose global cache fails to load the joined-room list. -/
def c8failEnv : Env :=
  { loadJoinedRooms := fun _ => Except.error "cache failure",
    loadRoom := fun roomID => { RoomID := roomID },
    loadRoomState := fun _ _ _ => [],
    lazilyLoadRoomDatas := fun _ roomIDs _ => roomIDs.map (fun roomID => (roomID, {})),
    loadRoomData := fun _ => {},
    removeHero := fun _ m => m,
    calculateRoomName := fun m _ => m.RoomID }

/-- A fresh connection: `loadPosition` 0, nothing loaded. -/
def c8freshState : ConnState := { userID := "@u:example.org" }

/-- A plain first request. -/
def c8req : ConnRequest := { Rooms := some [(0, 9)], sort := some ["by_recency"] }

/-- A stand-in for the request-delta merge of the `ConnState` revision
(outside the excerpt); irrelevant to first requests, which bypass it. -/
def passthroughApplyDelta (a b : ConnRequest) : ConnRequest × List String × List String :=
  (b, [], [])

/-- A muxed request carrying subscription information for `!a` only. -/
def c10muxed : ConnRequest :=
  { TimelineLimit := 3, RoomSubscriptions := [("!a", { TimelineLimit := 2 })] }

/-- A connection with that muxed request and an active subscription to
`!c`. -/
def c10state : ConnState :=
  { muxedReq := some c10muxed, loadPosition := 4, roomSubscriptions := [("!c", {})] }

/-- A small room record for the C5 witness. -/
def c5room (i : String) (ts : Nat) : RoomConnMetadata :=
  { RoomMetadata := { RoomID := i, LastMessageTimestamp := ts }, CanonicalisedName := i }

/-- Previous muxed request of the C5 witness: sorted by name. -/
def c5oldReq : ConnRequest := { Rooms := some [(0, 1)], sort := some ["by_name"] }

/-- Incoming request of the C5 witness: switches the sort to recency. -/
def c5newReq : ConnRequest := { Rooms := some [(0, 1)], sort := some ["by_recency"] }

/-- A non-first-request connection for the C5 witness: two rooms, name
order. -/
def c5state : ConnState :=
  { muxedReq := some c5oldReq, loadPosition := 2,
    sortedJoinedRooms := [c5room "!a" 5, c5room "!b" 9] }

/-! ## Lemmas about the association-list model -/

theorem lookupA_insertA {β : Type} (k q : String) (v : β) (l : List (String × β)) :
    lookupA q (insertA k v l) = if q = k then some v else lookupA q l := by
  induction l with
  | nil => simp [insertA, lookupA, eq_comm]
  | cons p rest ih =>
    by_cases hp : p.1 = k <;> by_cases hq : q = k <;> by_cases hr : p.1 = q <;>
      simp_all [insertA, lookupA, eq_comm]

theorem lookupA_eraseA {β : Type} (k q : String) (l : List (String × β)) :
    lookupA q (eraseA k l) = if q = k then none else lookupA q l := by
  induction l with
  | nil => simp [eraseA, lookupA]
  | cons p rest ih =>
    by_cases hp : p.1 = k <;> by_cases hq : q = k <;> by_cases hr : p.1 = q <;>
      simp_all [eraseA, lookupA, eq_comm]

theorem lookupA_eraseAllA {β : Type} (ks : List String) (q : String) (l : List (String × β)) :
    lookupA q (eraseAllA ks l) = if q ∈ ks then none else lookupA q l := by
  induction ks generalizing l with
  | nil => simp [eraseAllA]
  | cons k rest ih =>
    have step : eraseAllA (k :: rest) l = eraseAllA rest (eraseA k l) := rfl
    rw [step, ih, lookupA_eraseA]
    by_cases h1 : q ∈ rest <;> by_cases h2 : q = k <;> simp [h1, h2]

theorem lookupA_insertAllA {β : Type} (es : List (String × β)) (q : String) (l : List (String × β)) :
    lookupA q (insertAllA es l) =
      match lookupLastA q es with
      | some v => some v
      | none => lookupA q l := by
  induction es generalizing l with
  | nil => simp [insertAllA, lookupLastA]
  | cons e rest ih =>
    have step : insertAllA (e :: rest) l = insertAllA rest (insertA e.1 e.2 l) := rfl
    rw [step, ih, lookupA_insertA]
    simp only [lookupLastA]
    rcases h : lookupLastA q rest with _ | v
    · by_cases h2 : q = e.1 <;> simp [h2, eq_comm]
    · rfl

theorem lookupA_isSome_iff_keysA {β : Type} (q : String) (l : List (String × β)) :
    (lookupA q l).isSome ↔ q ∈ keysA l := by
  induction l with
  | nil => simp [lookupA, keysA]
  | cons p rest ih =>
    by_cases h : p.1 = q
    · subst h
      simp [lookupA, keysA]
    · simp [lookupA, keysA, h, ih, Ne.symm h]

theorem applyPrevUnsubs_fst {β : Type} (us : List String) (m : List (String × β)) :
    (applyPrevUnsubs m us).1 = eraseAllA us m := by
  induction us generalizing m with
  | nil => rfl
  | cons k rest ih => simp [applyPrevUnsubs, eraseAllA, ih, List.foldl_cons]

theorem applyNewUnsubs_fst {β : Type} (ns : List (String × β)) (us : List String)
    (m : List (String × β)) :
    (applyNewUnsubs ns m us).1 = eraseAllA us m := by
  induction us generalizing m with
  | nil => rfl
  | cons k rest ih => simp [applyNewUnsubs, eraseAllA, ih, List.foldl_cons]

theorem mem_applyPrevUnsubs_snd {β : Type} (us : List String) (m : List (String × β))
    (q : String) :
    q ∈ (applyPrevUnsubs m us).2 ↔ q ∈ us ∧ (lookupA q m).isSome := by
  induction us generalizing m with
  | nil => simp [applyPrevUnsubs]
  | cons k rest ih =>
    simp only [applyPrevUnsubs]
    by_cases hq : q = k
    · subst hq
      rcases h : lookupA q m with _ | v
      · simp [h, ih, lookupA_eraseA]
      · simp [h, ih, lookupA_eraseA]
    · rcases hb : (lookupA k m).isSome <;>
        simp [ih, lookupA_eraseA, hq, hb]

theorem mem_applyNewUnsubs_snd {β : Type} (ns : List (String × β)) (us : List String)
    (m : List (String × β)) (q : String) :
    q ∈ (applyNewUnsubs ns m us).2 ↔
      q ∈ us ∧ (lookupA q m).isSome ∧ (lookupA q ns).isNone := by
  induction us generalizing m with
  | nil => simp [applyNewUnsubs]
  | cons k rest ih =>
    simp only [applyNewUnsubs]
    by_cases hq : q = k
    · subst hq
      rcases h1 : lookupA q m with _ | v
      · simp [h1, ih, lookupA_eraseA]
      · rcases h2 : lookupA q ns with _ | w <;>
          simp [h1, h2, ih, lookupA_eraseA]
    · rcases hb : ((lookupA k m).isSome && (lookupA k ns).isNone) <;>
        simp [ih, lookupA_eraseA, hq, hb]

/-! ## C1 — the MoveRoom op stream -/

/-- C1: `ConnState.moveRoom` with `fromIndex == toIndex` returns exactly one
`UPDATE` at `fromIndex` whose room payload is the full delta projection when
`onlySendRoomID` is false and a stub carrying only the room identifier when
it is true; otherwise exactly one `DELETE` followed by one `INSERT` at
`toIndex`, the `DELETE` index being `fromIndex` when `fromIndex` lies inside
some tracked range and `LowerClamp(fromIndex)` otherwise. -/
theorem ConnState.moveRoom_spec (s : ConnState) (env : Env) (e : EventData)
    (fromIndex toIndex : Int) (ranges : SliceRanges) (onlySendRoomID : Bool) :
    (fromIndex = toIndex →
      s.moveRoom env e fromIndex toIndex ranges onlySendRoomID =
        [ResponseOp.single
          { Operation := "UPDATE", Index := some fromIndex,
            Room := some (if onlySendRoomID then { RoomID := e.roomID }
              else s.getDeltaRoomData env e) }]) ∧
    (fromIndex ≠ toIndex →
      s.moveRoom env e fromIndex toIndex ranges onlySendRoomID =
        [ResponseOp.single
          { Operation := "DELETE",
            Index := some (if (ranges.insideRng fromIndex).isSome then fromIndex
              else ranges.lowerClamp fromIndex) },
         ResponseOp.single
          { Operation := "INSERT", Index := some toIndex,
            Room := some (if onlySendRoomID then { RoomID := e.roomID }
              else (s.getInitialRoomData env [e.roomID]).headD { RoomID := e.roomID }) }]) := by
  constructor
  · intro h
    simp [ConnState.moveRoom, h]
  · intro h
    simp [ConnState.moveRoom, h, SliceRanges.insideB]

/-- Witness for C1 at concrete inputs: an in-place bump (`7 → 7` would be
`from = to`; here `2 = 2`) and the source's own example "7 bumps to top with
range [0,4]": `DELETE 4`, `INSERT 0`. -/
theorem ConnState.moveRoom_spec_witness :
    ConnState.moveRoom {} c8failEnv { roomID := "!w" } 2 2 [(0, 4)] true =
      [ResponseOp.single
        { Operation := "UPDATE", Index := some 2, Room := some { RoomID := "!w" } }] ∧
    ConnState.moveRoom {} c8failEnv { roomID := "!w" } 7 0 [(0, 4)] true =
      [ResponseOp.single { Operation := "DELETE", Index := some 4 },
       ResponseOp.single
        { Operation := "INSERT", Index := some 0, Room := some { RoomID := "!w" } }] := by
  constructor
  · have h := (ConnState.moveRoom_spec {} c8failEnv { roomID := "!w" } 2 2 [(0, 4)] true).1 rfl
    rw [h]
    decide
  · have h := (ConnState.moveRoom_spec {} c8failEnv { roomID := "!w" } 7 0 [(0, 4)] true).2
      (by decide)
    rw [h]
    decide

/-! ## C2 — the generalised move geometry -/

theorem jumpedOverRanges_eq_claim (rl : RequestList) (f t : Int) :
    rl.jumpedOverRanges f t = jumpedOverClaim (rl.Ranges.getD []) f t := by
  have hmin : (if f < t then f else t) = min f t := by split <;> omega
  have hmax : (if f < t then t else f) = max f t := by split <;> omega
  simp only [RequestList.jumpedOverRanges, jumpedOverClaim, hmin, hmax, gt_iff_lt]

/-- C2: `CalculateMoveIndexes` — case A: both indices inside the same range
yields the single pair `(fromIndex, toIndex)` with ok; case C: both outside
all ranges yields not-ok with no pairs when no range is jumped over, else
one pair per jumped-over range (a range whose bounds lie strictly between
`min(from,to)` and `max(from,to)`), oriented `(hi, lo)` when heading
towards zero and `(lo, hi)` otherwise. -/
theorem RequestList.calculateMoveIndexes_spec (rl : RequestList) (fromIndex toIndex : Int) :
    (∀ r : SliceRange,
      (rl.Ranges.getD []).insideRng fromIndex = some r →
      (rl.Ranges.getD []).insideRng toIndex = some r →
      rl.calculateMoveIndexes fromIndex toIndex = ([(fromIndex, toIndex)], true)) ∧
    ((rl.Ranges.getD []).insideRng fromIndex = none →
     (rl.Ranges.getD []).insideRng toIndex = none →
     rl.calculateMoveIndexes fromIndex toIndex =
       ((jumpedOverClaim (rl.Ranges.getD []) fromIndex toIndex).map
          (orientJump fromIndex toIndex),
        !(jumpedOverClaim (rl.Ranges.getD []) fromIndex toIndex).isEmpty)) := by
  constructor
  · intro r h1 h2
    simp [RequestList.calculateMoveIndexes, h1, h2]
  · intro h1 h2
    have hje := jumpedOverRanges_eq_claim rl fromIndex toIndex
    by_cases hj : jumpedOverClaim (rl.Ranges.getD []) fromIndex toIndex = []
    · simp [RequestList.calculateMoveIndexes, h1, h2, hje, hj]
    · simp [RequestList.calculateMoveIndexes, h1, h2, hje, hj]

/-- Witness for C2 on the source's own worked example, ranges `[1,4],[7,9]`:
a move inside the same range (`3 → 2`) and a move outside the ranges jumping
over both (`10 → 0`, everything shifts right). -/
theorem RequestList.calculateMoveIndexes_spec_witness :
    exampleList.calculateMoveIndexes 3 2 = ([(3, 2)], true) ∧
    exampleList.calculateMoveIndexes 10 0 = ([(4, 1), (9, 7)], true) := by
  constructor
  · exact (RequestList.calculateMoveIndexes_spec exampleList 3 2).1 (1, 4)
      (by decide) (by decide)
  · have h := (RequestList.calculateMoveIndexes_spec exampleList 10 0).2
      (by decide) (by decide)
    rw [h]
    decide

/-! ## C6 — the load-position drop rule -/

/-- C6 counterexample: the claim says every event with `latestPos ≤
loadPosition` is dropped, but the source guard is `latestPos != 0 &&
latestPos < loadPosition`.  With `loadPosition = 5`, an event at exactly
position 5 and an event at the placeholder position 0 are both placed on
the inbox. -/
theorem ConnState.onNewEvent_le_counterexample :
    c6eventAtLoad.latestPos ≤ c6state.loadPosition ∧
    (c6state.onNewEvent c6eventAtLoad).updateEvents = [c6eventAtLoad] ∧
    c6eventZero.latestPos ≤ c6state.loadPosition ∧
    (c6state.onNewEvent c6eventZero).updateEvents = [c6eventZero] := by
  exact ⟨by decide, rfl, by decide, rfl⟩

/-- C6 amended: an event whose `latestPos` is nonzero and strictly below the
connection's load position is dropped — never placed on the event inbox, the
state left untouched. -/
theorem ConnState.onNewEvent_drop (s : ConnState) (e : EventData)
    (h1 : e.latestPos ≠ 0) (h2 : e.latestPos < s.loadPosition) :
    s.onNewEvent e = s := by
  simp [ConnState.onNewEvent, h1, h2]

/-- Witness for the amended C6: a stale event (position 3, load position 5)
is dropped. -/
theorem ConnState.onNewEvent_drop_witness :
    c6state.onNewEvent c6eventStale = c6state :=
  ConnState.onNewEvent_drop c6state c6eventStale (by decide) (by decide)

/-! ## C7 — the full-inbox behaviour -/

/-- C7 (evidence of the code bug): when the inbox already holds
`MaxPendingEventUpdates` events and nobody drains it — the case in which the
channel send blocks past the 5-second timeout — the source's timeout arm
only logs (`TODO: kill the connection`): the state is returned unchanged, so
the event is dropped silently and the connection is NOT scheduled for
destruction, contradicting the claim on both counts. -/
theorem ConnState.onNewEvent_bufferExceeded_noDestroy :
    c7fullState.onNewEvent c7newEvent = c7fullState := by
  have hlen : c7fullState.updateEvents.length = MaxPendingEventUpdates :=
    List.length_replicate _ _
  unfold ConnState.onNewEvent
  rw [if_neg (by decide), if_neg (by rw [hlen]; exact lt_irrefl _)]

/-! ## C8 — the first-request load failure -/

/-- C8 (evidence of the code bug): `load` itself fails cleanly and leaves the
state untouched, but `HandleIncomingRequest` discards the error
(`s.load(req)` with the return value unused) and serves the request anyway:
the result is `ok` — no 5xx propagation — computed on a connection whose
`loadPosition` is still 0 and whose room list is still empty. -/
theorem ConnState.handleIncomingRequest_swallowsLoadError :
    c8freshState.load c8failEnv c8req = Except.error "cache failure" ∧
    (c8freshState.handleIncomingRequest c8failEnv passthroughApplyDelta c8req).isOk = true ∧
    (c8freshState.handleIncomingRequest c8failEnv passthroughApplyDelta c8req).toOption.map
      (fun res => (res.2.1.loadPosition, res.2.1.sortedJoinedRooms)) = some (0, []) := by
  exact ⟨rfl, rfl, rfl⟩

/-! ## C10 — room-subscription resolution -/

theorem getInitialRoomData_ignores_roomSubscriptions (s : ConnState) (env : Env)
    (X : List (String × RoomSubscription)) (ids : List String) :
    ConnState.getInitialRoomData { s with roomSubscriptions := X } env ids =
      s.getInitialRoomData env ids := rfl

theorem subStep_foldl_state (env : Env) (m : ConnRequest) (subs : List String)
    (σ : ConnState) (res : List (String × Room)) (q : String) :
    lookupA q ((subs.foldl (ConnState.subStep env m) (res, σ)).2.roomSubscriptions) =
      match lookupA q m.RoomSubscriptions with
      | some sub => if q ∈ subs then some sub else lookupA q σ.roomSubscriptions
      | none => lookupA q σ.roomSubscriptions := by
  induction subs generalizing σ res with
  | nil =>
    rcases h : lookupA q m.RoomSubscriptions with _ | sub <;> simp [h]
  | cons hd rest ih =>
    simp only [List.foldl_cons]
    rcases hhd : lookupA hd m.RoomSubscriptions with _ | sub
    · simp only [ConnState.subStep, hhd]
      rw [ih]
      by_cases hq : q = hd
      · subst hq
        simp [hhd]
      · rcases h : lookupA q m.RoomSubscriptions with _ | s2 <;> simp [h, hq]
    · simp only [ConnState.subStep, hhd]
      rw [ih]
      by_cases hq : q = hd
      · subst hq
        simp [hhd, lookupA_insertA]
      · rcases h : lookupA q m.RoomSubscriptions with _ | s2 <;>
          simp [h, hq, lookupA_insertA]

theorem subStep_foldl_result (env : Env) (m : ConnRequest) (subs : List String)
    (σ : ConnState) (res : List (String × Room)) (q : String) :
    lookupA q ((subs.foldl (ConnState.subStep env m) (res, σ)).1) =
      match lookupA q m.RoomSubscriptions with
      | some _ => if q ∈ subs
                  then some ((σ.getInitialRoomData env [q]).headD { RoomID := q })
                  else lookupA q res
      | none => lookupA q res := by
  induction subs generalizing σ res with
  | nil =>
    rcases h : lookupA q m.RoomSubscriptions with _ | sub <;> simp [h]
  | cons hd rest ih =>
    simp only [List.foldl_cons]
    rcases hhd : lookupA hd m.RoomSubscriptions with _ | sub
    · simp only [ConnState.subStep, hhd]
      rw [ih]
      by_cases hq : q = hd
      · subst hq
        simp [hhd]
      · rcases h : lookupA q m.RoomSubscriptions with _ | s2 <;> simp [h, hq]
    · simp only [ConnState.subStep, hhd]
      rw [ih]
      by_cases hq : q = hd
      · subst hq
        simp [hhd, lookupA_insertA, getInitialRoomData_ignores_roomSubscriptions]
      · rcases h : lookupA q m.RoomSubscriptions with _ | s2 <;>
          simp [h, hq, lookupA_insertA, getInitialRoomData_ignores_roomSubscriptions]

/-- C10: in `updateRoomSubscriptions`, a requested subscription with no entry
in the muxed request's room-subscription map is silently skipped — no initial
payload, nothing recorded; one with an entry is recorded and gets exactly one
initial `Room` payload; every unsubscribe is removed from the active set. -/
theorem ConnState.updateRoomSubscriptions_spec (s : ConnState) (env : Env)
    (subs unsubs : List String) (m : ConnRequest) (h : s.muxedReq = some m) :
    (∀ id, id ∈ subs → lookupA id m.RoomSubscriptions = none →
       lookupA id (s.updateRoomSubscriptions env subs unsubs).1 = none ∧
       lookupA id (s.updateRoomSubscriptions env subs unsubs).2.roomSubscriptions =
         (if id ∈ unsubs then none else lookupA id s.roomSubscriptions)) ∧
    (∀ id sub, id ∈ subs → lookupA id m.RoomSubscriptions = some sub →
       lookupA id (s.updateRoomSubscriptions env subs unsubs).1 =
         some ((s.getInitialRoomData env [id]).headD { RoomID := id }) ∧
       lookupA id (s.updateRoomSubscriptions env subs unsubs).2.roomSubscriptions =
         (if id ∈ unsubs then none else some sub)) ∧
    (∀ id, id ∈ unsubs →
       lookupA id (s.updateRoomSubscriptions env subs unsubs).2.roomSubscriptions = none) := by
  have hm : s.muxedReq.getD defaultConnRequest = m := by rw [h]; rfl
  refine ⟨?_, ?_, ?_⟩
  · intro id hid hnone
    constructor
    · simp only [ConnState.updateRoomSubscriptions, hm]
      rw [subStep_foldl_result]
      simp [hnone, lookupA]
    · simp only [ConnState.updateRoomSubscriptions, hm]
      rw [lookupA_eraseAllA, subStep_foldl_state]
      simp [hnone]
  · intro id sub hid hsub
    constructor
    · simp only [ConnState.updateRoomSubscriptions, hm]
      rw [subStep_foldl_result]
      simp [hsub, hid]
    · simp only [ConnState.updateRoomSubscriptions, hm]
      rw [lookupA_eraseAllA, subStep_foldl_state]
      simp [hsub, hid]
  · intro id hid
    simp only [ConnState.updateRoomSubscriptions, hm]
    rw [lookupA_eraseAllA]
    simp [hid]

/-- Witness for C10: `!a` has request-side information (recorded, one
payload), `!b` has none (skipped), `!c` is unsubscribed. -/
theorem ConnState.updateRoomSubscriptions_spec_witness :
    lookupA "!b" (c10state.updateRoomSubscriptions c8failEnv ["!a", "!b"] ["!c"]).1 = none ∧
    lookupA "!a" (c10state.updateRoomSubscriptions c8failEnv ["!a", "!b"] ["!c"]).2.roomSubscriptions =
      some { TimelineLimit := 2 } ∧
    lookupA "!c" (c10state.updateRoomSubscriptions c8failEnv ["!a", "!b"] ["!c"]).2.roomSubscriptions =
      none := by
  have H := ConnState.updateRoomSubscriptions_spec c10state c8failEnv ["!a", "!b"] ["!c"]
    c10muxed rfl
  refine ⟨(H.1 "!b" (by decide) (by decide)).1, ?_, H.2.2 "!c" (by decide)⟩
  have h2 := (H.2.1 "!a" { TimelineLimit := 2 } (by decide) (by decide)).2
  rw [h2]
  decide

/-! ## C5 — sort change: invalidate everything, re-sort, re-sync -/

theorem subStep_foldl_sortedJoinedRooms (env : Env) (m : ConnRequest) (subs : List String)
    (acc : List (String × Room) × ConnState) :
    ((subs.foldl (ConnState.subStep env m) acc).2).sortedJoinedRooms =
      acc.2.sortedJoinedRooms := by
  induction subs generalizing acc with
  | nil => rfl
  | cons hd rest ih =>
    simp only [List.foldl_cons]
    rw [ih]
    rcases h : lookupA hd m.RoomSubscriptions with _ | sub <;> simp [ConnState.subStep, h]

theorem updateRoomSubscriptions_sortedJoinedRooms (s : ConnState) (env : Env)
    (a b : List String) :
    (s.updateRoomSubscriptions env a b).2.sortedJoinedRooms = s.sortedJoinedRooms := by
  simp only [ConnState.updateRoomSubscriptions]
  rw [subStep_foldl_sortedJoinedRooms]

/-- C5: on a non-first request whose merged sort differs from the previous
sort, with a previous sort present, the op stream is exactly one
`INVALIDATE` per range of the new window followed by one `SYNC` per range —
every range treated as added, the `SYNC` carrying the initial projections of
the rooms in that absolute slice of the re-sorted list (see
`ConnState.syncOpForRange`) — so all `INVALIDATE`s precede all `SYNC`s, and
the room list is re-sorted under the new keys. -/
theorem ConnState.onIncomingRequest_sortChange (s : ConnState) (env : Env)
    (adv : ConnRequest → ConnRequest → ConnRequest × List String × List String)
    (req old : ConnRequest) (ps : List String)
    (h1 : s.muxedReq = some old) (h2 : old.sort = some ps)
    (h3 : (adv old req).1.sort ≠ some ps) :
    (s.onIncomingRequestCore env adv req).1.Ops =
      ((adv old req).1.Rooms.getD []).map invalidateOp ++
      ((adv old req).1.Rooms.getD []).map (fun r =>
        ConnState.syncOpForRange
          (ConnState.sortState
            (ConnState.updateRoomSubscriptions { s with muxedReq := some (adv old req).1 }
              env (adv old req).2.1 (adv old req).2.2).2
            (((adv old req).1.sort).getD []))
          env r) ∧
    (s.onIncomingRequestCore env adv req).2.1.sortedJoinedRooms =
      sortRooms (((adv old req).1.sort).getD []) s.sortedJoinedRooms := by
  have hne : (some ps : Option (List String)) ≠ (adv old req).1.sort := fun hh => h3 hh.symm
  have hnn : (some ps : Option (List String)) ≠ none := by simp
  constructor
  · simp only [ConnState.onIncomingRequestCore, ConnState.windowOps, h1, h2, Option.bind,
      if_pos hne, if_pos hnn]
  · simp only [ConnState.onIncomingRequestCore, ConnState.windowOps, h1, h2, Option.bind,
      if_pos hne, if_pos hnn, ConnState.sortState]
    rw [updateRoomSubscriptions_sortedJoinedRooms]

/-- Witness for C5: two rooms sorted by name, one window `[0,1]`; the sort
switches to recency: one `INVALIDATE [0,1]` precedes one `SYNC [0,1]`
carrying projections in the new (recency) order, and the list is
re-sorted. -/
theorem ConnState.onIncomingRequest_sortChange_witness :
    (c5state.onIncomingRequestCore c8failEnv passthroughApplyDelta c5newReq).1.Ops =
      [invalidateOp (0, 1),
       ResponseOp.range
        { Operation := "SYNC", Range := (0, 1),
          Rooms := [{ RoomID := "!b", Name := "!b" }, { RoomID := "!a", Name := "!a" }] }] ∧
    (c5state.onIncomingRequestCore c8failEnv passthroughApplyDelta c5newReq).2.1.sortedJoinedRooms =
      [c5room "!b" 9, c5room "!a" 5] := by
  have H := ConnState.onIncomingRequest_sortChange c5state c8failEnv passthroughApplyDelta
    c5newReq c5oldReq ["by_name"] rfl rfl (by decide)
  exact ⟨H.1.trans (by decide), H.2.trans (by decide)⟩

/-! ## C3 — the per-list merge of ApplyDelta -/

theorem mergeLists_getElem (es ns : List RequestList) (i : Nat) :
    (mergeLists es ns)[i]? = (ns[i]?).map (fun nl => c3AmendedMerge es[i]? nl) := by
  induction ns generalizing es i with
  | nil => simp [mergeLists]
  | cons nl rest ih =>
    cases es with
    | nil =>
      cases i with
      | zero => simp [mergeLists, c3AmendedMerge]
      | succ j => simpa [mergeLists] using ih [] j
    | cons ex es2 =>
      cases i with
      | zero => simp [mergeLists, c3AmendedMerge]
      | succ j => simpa [mergeLists] using ih es2 j

/-- C3 counterexample: with a previous list `{sort: ["by_name"],
timeline_limit: 5}` and an incoming list whose sort is set-but-empty (Go: a
non-nil empty slice) and whose timeline limit is `-1`, the merge keeps the
incoming empty sort (the source tests `sort == nil`, not emptiness) and the
incoming `-1` (the source tests `!= 0`, not `> 0`), not the previous values
the claim requires. -/
theorem Request.applyDelta_listMerge_counterexample :
    ¬ ((Request.applyDelta (some c3prevReq) c3nextReq).1.Lists[0]? =
       (c3nextReq.Lists[0]?).map (c3ClaimMerge (c3prevReq.Lists[0]?))) := by decide

/-- C3 amended: the list at every position `i` of the incoming request takes
ranges, required-state, filters and slow-get-all-rooms from the incoming
list when set (non-nil) and from the previous list otherwise; sort from the
incoming list when SET (non-nil, even if empty), else from the previous
list, defaulting to `[by_recency]` when no previous list exists at `i` and
the incoming sort is missing or empty; and timeline-limit from the incoming
list when NON-ZERO, else from the previous list (see `c3AmendedMerge`). -/
theorem Request.applyDelta_listMerge (r? : Option Request) (nextReq : Request) (i : Nat)
    (nl : RequestList) (h : nextReq.Lists[i]? = some nl) :
    (Request.applyDelta r? nextReq).1.Lists[i]? =
      some (c3AmendedMerge ((r?.getD {}).Lists[i]?) nl) := by
  have hp : (Request.applyDelta r? nextReq).1.Lists =
      mergeLists (r?.getD {}).Lists nextReq.Lists := rfl
  rw [hp, mergeLists_getElem, h]
  rfl

/-- Witness for the amended C3 at the counterexample input: the merged list
keeps the incoming empty sort and the incoming `-1` timeline limit. -/
theorem Request.applyDelta_listMerge_witness :
    (Request.applyDelta (some c3prevReq) c3nextReq).1.Lists[0]? =
      some { sort := some [], TimelineLimit := -1 } := by
  have H := Request.applyDelta_listMerge (some c3prevReq) c3nextReq 0
    { sort := some [], TimelineLimit := -1 } (by decide)
  rw [H]
  decide

/-! ## C4 — subscription merging and delta reporting -/

/-- C4 counterexample: if the stored muxed request both subscribes to and
unsubscribes from `!a` (the first client request is stored wholesale, so its
unsubscribe list can be non-empty) and the incoming request re-subscribes to
`!a`, the delta reports `!a` in `unsubs` even though `!a` is present in the
resulting subscription map — it was never dropped, contradicting
"`delta.unsubs` = identifiers dropped from the previous subscriptions". -/
theorem Request.applyDelta_unsubs_counterexample :
    "!a" ∈ (Request.applyDelta (some c4prevReq) c4nextReq).2.1.Unsubs ∧
    ¬ (lookupA "!a" (Request.applyDelta (some c4prevReq) c4nextReq).1.RoomSubscriptions
        = none) := by decide

/-- C4 amended: the resulting subscription map is previous subscriptions,
minus previous unsubscribes, overwritten by incoming subscriptions, minus
incoming unsubscribes (`c4Pipeline`); `delta.subs` is exactly the
identifiers present in the result but absent from the previous
subscriptions; `delta.unsubs` is exactly the identifiers reported by the
two unsubscribe passes — previous unsubscribes present in the previous
subscriptions (even when the incoming request re-subscribes them), plus
incoming unsubscribes that are present after the incoming subscriptions
were applied and do not themselves appear among the incoming subscriptions
(so a room in both incoming subs and unsubs ends unsubscribed without being
reported). -/
theorem Request.applyDelta_subscriptions (r? : Option Request) (nextReq : Request)
    (q : String) :
    lookupA q (Request.applyDelta r? nextReq).1.RoomSubscriptions =
      lookupA q (c4Pipeline (r?.getD {}) nextReq) ∧
    (q ∈ (Request.applyDelta r? nextReq).2.1.Subs ↔
      (lookupA q (Request.applyDelta r? nextReq).1.RoomSubscriptions).isSome ∧
      lookupA q (r?.getD {}).RoomSubscriptions = none) ∧
    (q ∈ (Request.applyDelta r? nextReq).2.1.Unsubs ↔
      (q ∈ (r?.getD {}).UnsubscribeRooms ∧
         (lookupA q (r?.getD {}).RoomSubscriptions).isSome) ∨
      (q ∈ nextReq.UnsubscribeRooms ∧
         (lookupA q (insertAllA nextReq.RoomSubscriptions
            (eraseAllA (r?.getD {}).UnsubscribeRooms
              (r?.getD {}).RoomSubscriptions))).isSome ∧
         lookupA q nextReq.RoomSubscriptions = none)) := by
  have hsubs : (Request.applyDelta r? nextReq).1.RoomSubscriptions =
      (applyNewUnsubs nextReq.RoomSubscriptions
        (insertAllA nextReq.RoomSubscriptions
          (applyPrevUnsubs (r?.getD {}).RoomSubscriptions
            (r?.getD {}).UnsubscribeRooms).1)
        nextReq.UnsubscribeRooms).1 := rfl
  have hunsubs : (Request.applyDelta r? nextReq).2.1.Unsubs =
      (applyPrevUnsubs (r?.getD {}).RoomSubscriptions (r?.getD {}).UnsubscribeRooms).2 ++
      (applyNewUnsubs nextReq.RoomSubscriptions
        (insertAllA nextReq.RoomSubscriptions
          (applyPrevUnsubs (r?.getD {}).RoomSubscriptions
            (r?.getD {}).UnsubscribeRooms).1)
        nextReq.UnsubscribeRooms).2 := rfl
  have hdsubs : (Request.applyDelta r? nextReq).2.1.Subs =
      (keysA (Request.applyDelta r? nextReq).1.RoomSubscriptions).filter
        (fun roomID => (lookupA roomID (r?.getD {}).RoomSubscriptions).isNone) := rfl
  refine ⟨?_, ?_, ?_⟩
  · rw [hsubs, applyNewUnsubs_fst, applyPrevUnsubs_fst, c4Pipeline]
  · rw [hdsubs]
    simp only [List.mem_filter, ← lookupA_isSome_iff_keysA, Option.isNone_iff_eq_none,
      decide_eq_true_eq]
  · rw [hunsubs]
    simp only [List.mem_append, mem_applyPrevUnsubs_snd, mem_applyNewUnsubs_snd,
      applyPrevUnsubs_fst, Option.isNone_iff_eq_none]

/-- Witness for the amended C4 at the counterexample input: the result map
agrees with the pipeline at `!a`, and `!a` is reported in `delta.unsubs` by
the previous-unsubscribes pass. -/
theorem Request.applyDelta_subscriptions_witness :
    lookupA "!a" (Request.applyDelta (some c4prevReq) c4nextReq).1.RoomSubscriptions =
      lookupA "!a" (c4Pipeline c4prevReq c4nextReq) ∧
    "!a" ∈ (Request.applyDelta (some c4prevReq) c4nextReq).2.1.Unsubs := by
  have H := Request.applyDelta_subscriptions (some c4prevReq) c4nextReq "!a"
  exact ⟨H.1, H.2.2.mpr (Or.inl (by decide))⟩

/-! ## C9 — idempotence of ApplyDelta -/

theorem mergeLists_nil_left (ns : List RequestList) :
    mergeLists [] ns = ns.map applyDefaultSort := by
  induction ns with
  | nil => rfl
  | cons nl rest ih => simp [mergeLists, ih]

theorem mutateNextLists_nil_left (ns : List RequestList) :
    mutateNextLists [] ns = ns.map applyDefaultSort := by
  induction ns with
  | nil => rfl
  | cons nl rest ih => simp [mutateNextLists, ih]

theorem mergeList_self (x : RequestList) : mergeList x x = x := by
  obtain ⟨rs, tl, rg, so, fi, sg⟩ := x
  simp only [mergeList]
  rcases rs <;> rcases rg <;> rcases so <;> rcases fi <;> rcases sg <;> simp

theorem mergeLists_self (l : List RequestList) : mergeLists l l = l := by
  induction l with
  | nil => rfl
  | cons x rest ih => simp [mergeLists, mergeList_self, ih]

/-- C9: `ApplyDelta(ApplyDelta(nil, r), r)` equals `ApplyDelta(nil, r)` at
the muxed-request level — same lists, same subscription map.  In the Go
source the expression passes the same `*Request` twice, and the first call
writes defaulted sorts into `nextReq.Lists` in place; the embedding returns
that mutated request as the third component, which is threaded here exactly
as the Go aliasing does. -/
theorem Request.applyDelta_idempotent (r : Request) :
    (Request.applyDelta (some (Request.applyDelta none r).1)
        (Request.applyDelta none r).2.2).1.Lists =
      (Request.applyDelta none r).1.Lists ∧
    ∀ q, lookupA q (Request.applyDelta (some (Request.applyDelta none r).1)
          (Request.applyDelta none r).2.2).1.RoomSubscriptions =
        lookupA q (Request.applyDelta none r).1.RoomSubscriptions := by
  constructor
  · have h1 : (Request.applyDelta none r).1.Lists = mergeLists [] r.Lists := rfl
    have h2 : (Request.applyDelta (some (Request.applyDelta none r).1)
        (Request.applyDelta none r).2.2).1.Lists =
        mergeLists (mergeLists [] r.Lists) (mutateNextLists [] r.Lists) := rfl
    rw [h1, h2, mergeLists_nil_left, mutateNextLists_nil_left, mergeLists_self]
  · intro q
    have e1 : (Request.applyDelta none r).1.RoomSubscriptions =
        eraseAllA r.UnsubscribeRooms (insertAllA r.RoomSubscriptions []) := by
      have h : (Request.applyDelta none r).1.RoomSubscriptions =
          (applyNewUnsubs r.RoomSubscriptions (insertAllA r.RoomSubscriptions [])
            r.UnsubscribeRooms).1 := rfl
      rw [h, applyNewUnsubs_fst]
    have e2 : (Request.applyDelta (some (Request.applyDelta none r).1)
        (Request.applyDelta none r).2.2).1.RoomSubscriptions =
        eraseAllA r.UnsubscribeRooms (insertAllA r.RoomSubscriptions
          ((Request.applyDelta none r).1.RoomSubscriptions)) := by
      have h : (Request.applyDelta (some (Request.applyDelta none r).1)
          (Request.applyDelta none r).2.2).1.RoomSubscriptions =
          (applyNewUnsubs r.RoomSubscriptions
            (insertAllA r.RoomSubscriptions
              ((Request.applyDelta none r).1.RoomSubscriptions))
            r.UnsubscribeRooms).1 := rfl
      rw [h, applyNewUnsubs_fst]
    have hF : lookupA q (Request.applyDelta none r).1.RoomSubscriptions =
        (if q ∈ r.UnsubscribeRooms then none
         else match lookupLastA q r.RoomSubscriptions with
              | some v => some v
              | none => (none : Option RoomSubscription)) := by
      rw [e1, lookupA_eraseAllA, lookupA_insertAllA]
      rcases lookupLastA q r.RoomSubscriptions <;> simp [lookupA]
    rw [e2, lookupA_eraseAllA, lookupA_insertAllA, hF]
    by_cases hq : q ∈ r.UnsubscribeRooms
    · simp [hq]
    · rcases hl : lookupLastA q r.RoomSubscriptions <;> simp [hq, hl]
